import Mathlib

/-!
Shallow embedding of the two classpath-maintenance scripts
(`cleanup_classpath.py` and `restore_project_refs.py`).

Python strings are modelled as Lean `String`s (operating on their
character lists), XML `classpathentry` elements as association lists of
attributes, parsed `.classpath` documents as lists of entries, and the
filesystem inputs (manifest file contents, directory listings, parse
results) as explicit values.  Python's `ElementTree` elements compare by
object identity; the embedding makes that identity explicit by pairing
each entry with its position in the document.
-/

set_option autoImplicit false

namespace ClasspathTools

/-- Model of Python `str.startswith` for plain (non-tuple) arguments. -/
def strStartsWith (s p : String) : Bool := p.data.isPrefixOf s.data

/-- Character-list substring test used to model Python's `in` on strings. -/
def containsChars (needle : List Char) : List Char → Bool
  | [] => needle.isEmpty
  | c :: cs => needle.isPrefixOf (c :: cs) || containsChars needle cs

/-- Model of Python `sub in s` for strings. -/
def strContains (s sub : String) : Bool := containsChars sub.data s.data

/-- Model of Python `c in s` for a single character. -/
def strContainsChar (s : String) (c : Char) : Bool := s.data.any (fun x => x == c)

/-- The whitespace characters stripped by Python's `str.strip()` (ASCII part). -/
def isSpaceChar (c : Char) : Bool :=
  c == ' ' || c == '\t' || c == '\n' || c == '\r' || c == '\x0b' || c == '\x0c'

/-- Model of Python `str.strip()` with no argument. -/
def pyStrip (s : String) : String :=
  ⟨((s.data.dropWhile isSpaceChar).reverse.dropWhile isSpaceChar).reverse⟩

/-- Model of Python slicing `s[n:]`. -/
def pyDrop (s : String) (n : Nat) : String := ⟨s.data.drop n⟩

/-- ASCII lower-casing of one character, as in Python `str.lower()` on ASCII input. -/
def lowerChar (c : Char) : Char :=
  if 'A' ≤ c ∧ c ≤ 'Z' then Char.ofNat (c.toNat + 32) else c

/-- Model of Python `str.lower()` (ASCII). -/
def strLower (s : String) : String := ⟨s.data.map lowerChar⟩

/-- Model of `os.path.basename` for POSIX paths: the part after the last slash. -/
def basename (p : String) : String :=
  ⟨(p.data.reverse.takeWhile (fun c => !(c == '/'))).reverse⟩

/-- Splitting a character list on one separator character, as Python
`str.split(sep)` does for a one-character separator.  The result is always
non-empty. -/
def splitCharAux (sep : Char) : List Char → List Char → List (List Char)
  | [], cur => [cur.reverse]
  | c :: cs, cur =>
    if c == sep then cur.reverse :: splitCharAux sep cs []
    else splitCharAux sep cs (c :: cur)

/-- Model of Python `s.split(sep)` for a one-character separator. -/
def splitOnChar (sep : Char) (s : String) : List String :=
  (splitCharAux sep s.data []).map (fun cs => ⟨cs⟩)

/-- An XML `classpathentry` element, modelled as its attribute list in
document order. -/
structure Entry where
  attrs : List (String × String)
deriving DecidableEq

/-- Model of `ElementTree.Element.get(key)`: the first attribute named `key`. -/
def Entry.get (e : Entry) (key : String) : Option String :=
  (e.attrs.find? (fun p => p.1 == key)).map (fun p => p.2)

/-- Model of `ElementTree.Element.get(key, default)`. -/
def Entry.getD (e : Entry) (key d : String) : String := (e.get key).getD d

/-- Whether the entry's `kind` attribute equals `"lib"`, as tested by
`entry.get("kind") == "lib"` (a missing attribute compares unequal). -/
def isLib (e : Entry) : Bool := e.get "kind" == some "lib"

/-- Rule 1's per-project test from `cleanup_classpath`: the filename equals
`project + ".jar"`, or starts with `project + "-"`, or with `project + "_"`. -/
def rule1Matches (project filename : String) : Bool :=
  filename == project ++ ".jar" ||
    strStartsWith filename (project ++ "-") ||
    strStartsWith filename (project ++ "_")

/-- The `for project in source_projects` loop with its `break`: the first
project of the catalog that matches the filename, if any. -/
def rule1Match (projects : List String) (filename : String) : Option String :=
  projects.find? (fun p => rule1Matches p filename)

/-- Rule 2's test from `cleanup_classpath`: the filename contains
`".source_"` or `".source-"`. -/
def rule2Matches (filename : String) : Bool :=
  strContains filename ".source_" || strContains filename ".source-"

/-- Derived characterisation of the entries the cleanup loop flags:
`kind == "lib"` and Rule 1 or Rule 2 matches the path's basename. -/
def entryFlagged (projects : List String) (e : Entry) : Bool :=
  isLib e &&
    ((rule1Match projects (basename (e.getD "path" ""))).isSome ||
      rule2Matches (basename (e.getD "path" "")))

/-- Pairs each entry with its document position; positions model the object
identity that Python's `in` test and `Element.remove` use. -/
def withIdx : Nat → List Entry → List (Nat × Entry)
  | _, [] => []
  | n, e :: es => (n, e) :: withIdx (n + 1) es

/-- One iteration of the `for entry in root.findall("classpathentry")`
loop of `cleanup_classpath`, accumulating the `to_remove` list: Rule 1
appends on the first matching project, then Rule 2 appends when the entry
was not already appended (`entry not in to_remove`). -/
def cleanupStep (projects : List String) (acc : List (Nat × Entry)) (ie : Nat × Entry) :
    List (Nat × Entry) :=
  if isLib ie.2 then
    let filename := basename (ie.2.getD "path" "")
    let acc1 := if (rule1Match projects filename).isSome then acc ++ [ie] else acc
    if rule2Matches filename && !(decide (ie ∈ acc1)) then acc1 ++ [ie] else acc1
  else acc

/-- The `to_remove` list built by `cleanup_classpath`, in document order. -/
def toRemoveIdx (projects : List String) (doc : List Entry) : List (Nat × Entry) :=
  (withIdx 0 doc).foldl (cleanupStep projects) []

/-- The `for entry in to_remove: root.remove(entry)` loop: each removal
erases that identified element from the document. -/
def removeAll (doc rm : List (Nat × Entry)) : List (Nat × Entry) :=
  rm.foldl (fun d ie => d.erase ie) doc

/-- Result of `cleanup_classpath` on a parsed document: the mutated
document and the `changed` flag it returns. -/
structure CleanupResult where
  doc : List Entry
  changed : Bool
deriving DecidableEq

/-- The core of `cleanup_classpath` (cleanup_classpath.py, lines 25-58):
flag entries, remove them, report whether anything changed. -/
def cleanup_classpath (projects : List String) (doc : List Entry) : CleanupResult :=
  let rm := toRemoveIdx projects doc
  { doc := (removeAll (withIdx 0 doc) rm).map (fun ie => ie.2)
    changed := !rm.isEmpty }

/-! Reference-restoration pipeline (`restore_project_refs.py`). -/

/-- The element `ET.SubElement` appends for a project reference
(restore_project_refs.py, lines 77-81). -/
def newEntry (projectPath : String) : Entry :=
  ⟨[("combineaccessrules", "false"), ("kind", "src"), ("path", projectPath)]⟩

/-- The `existing_srcs` list (line 70): the `path` attribute (possibly
absent) of every entry whose `kind` attribute equals `"src"`. -/
def existingSrcs (doc : List Entry) : List (Option String) :=
  (doc.filter (fun e => e.get "kind" == some "src")).map (fun e => e.get "path")

/-- Lookup in the workspace-projects map, modelling `bundle in d` and
`d[bundle]` for a Python `dict` (keys are unique). -/
def lookupCat (cat : List (String × String)) (k : String) : Option String :=
  (cat.find? (fun p => p.1 == k)).map (fun p => p.2)

/-- One iteration of the `for bundle in required_bundles` loop of
`update_classpath_references` (lines 72-82): state is the document plus
the `changed` flag; `existing_srcs` is fixed before the loop. -/
def updStep (exs : List (Option String)) (cat : List (String × String))
    (st : List Entry × Bool) (bundle : String) : List Entry × Bool :=
  match lookupCat cat bundle with
  | some dir =>
    if some ("/" ++ dir) ∈ exs then st
    else (st.1 ++ [newEntry ("/" ++ dir)], true)
  | none => st

/-- The core of `update_classpath_references` (restore_project_refs.py,
lines 64-88): append missing project references at the end of the
document, and report whether any was added. -/
def update_classpath_references (doc : List Entry) (required : List String)
    (cat : List (String × String)) : List Entry × Bool :=
  required.foldl (updStep (existingSrcs doc) cat) (doc, false)

/-- The reference a single required bundle contributes, if any: its
catalog directory must exist and its path must not already be among the
existing `src` paths. -/
def refToAdd (exs : List (Option String)) (cat : List (String × String))
    (b : String) : Option Entry :=
  match lookupCat cat b with
  | some dir =>
    if some ("/" ++ dir) ∈ exs then none else some (newEntry ("/" ++ dir))
  | none => none

/-- The entries one run of `update_classpath_references` appends, in
required-bundle order. -/
def appendedRefs (doc : List Entry) (required : List String)
    (cat : List (String × String)) : List Entry :=
  required.filterMap (refToAdd (existingSrcs doc) cat)

/-! The `Require-Bundle` manifest parser. -/

/-- One iteration of the `for part in content.split(",")` loop of
`get_required_bundles` (lines 56-59): take the text before the first
`";"`, strip it, append it when non-empty. -/
def parseStep (bundles : List String) (part : String) : List String :=
  let bundleId := pyStrip ⟨part.data.takeWhile (fun c => !(c == ';'))⟩
  if bundleId.data.isEmpty then bundles else bundles ++ [bundleId]

/-- The splitting stage of `get_required_bundles` (lines 54-60). -/
def parseBundles (content : String) : List String :=
  (splitOnChar ',' content).foldl parseStep []

/-- The header-accumulation loop of `get_required_bundles`
(restore_project_refs.py, lines 44-52), with its `in_require` flag and
`content` accumulator; reaching the `break` returns the accumulated
content. -/
def collectRequire : List String → Bool → String → String
  | [], _, content => content
  | line :: rest, inReq, content =>
    if strStartsWith line "Require-Bundle:" then
      collectRequire rest true (content ++ pyStrip (pyDrop line 15))
    else if inReq then
      if strContainsChar line ':' && !(strStartsWith line " ") then content
      else collectRequire rest true (content ++ pyStrip line)
    else collectRequire rest false content

/-- The core of `get_required_bundles` (restore_project_refs.py, lines
35-60).  The input is `none` when the manifest file does not exist,
otherwise the list of lines that `readlines()` returns (each keeping its
trailing newline). -/
def get_required_bundles (file : Option (List String)) : List String :=
  match file with
  | none => []
  | some lines => parseBundles (collectRequire lines false "")

/-- Whether a line starts with a whitespace character. -/
def startsWithWs (line : String) : Bool :=
  match line.data with
  | [] => false
  | c :: _ => isSpaceChar c

/-- Modelled from the spec (claim C6 wording): the value continuation
runs until a line that contains a colon and does not start with
whitespace. -/
def contClaim : List String → String
  | [] => ""
  | line :: rest =>
    if strContainsChar line ':' && !startsWithWs line then ""
    else pyStrip line ++ contClaim rest

/-- Modelled from the spec (claim C6 wording): the value of the first
`Require-Bundle` header, accumulated across continuation lines. -/
def requireValueClaim : List String → Option String
  | [] => none
  | line :: rest =>
    if strStartsWith line "Require-Bundle:" then
      some (pyStrip (pyDrop line 15) ++ contClaim rest)
    else requireValueClaim rest

/-- The claim's description of `get_required_bundles`, as stated. -/
def get_required_bundles_claim (file : Option (List String)) : List String :=
  match file with
  | none => []
  | some lines => parseBundles ((requireValueClaim lines).getD "")

/-- Amended continuation rule: the value stops at a line that contains a
colon, does not start with a space character, and does not itself start
with `Require-Bundle:`; a line starting with `Require-Bundle:` has its
value after the prefix appended. -/
def contAmended : List String → String
  | [] => ""
  | line :: rest =>
    if strStartsWith line "Require-Bundle:" then
      pyStrip (pyDrop line 15) ++ contAmended rest
    else if strContainsChar line ':' && !(strStartsWith line " ") then ""
    else pyStrip line ++ contAmended rest

/-- The amended header value: first `Require-Bundle` line's value plus
the amended continuation. -/
def requireValueAmended : List String → Option String
  | [] => none
  | line :: rest =>
    if strStartsWith line "Require-Bundle:" then
      some (pyStrip (pyDrop line 15) ++ contAmended rest)
    else requireValueAmended rest

/-- The amended description of `get_required_bundles`. -/
def get_required_bundles_amended (file : Option (List String)) : List String :=
  match file with
  | none => []
  | some lines => parseBundles ((requireValueAmended lines).getD "")

/-! The workspace catalog builder of the restore pipeline. -/

/-- A subdirectory entry of a workspace root, as the restore pipeline
sees it: its name, whether it is a directory, the content of its
`META-INF/MANIFEST.MF` when that file exists, and whether a `.project`
file exists. -/
structure Dir where
  name : String
  isDir : Bool
  manifest : Option String
  hasDotProject : Bool
deriving DecidableEq

/-- A workspace root: its configured path, whether it exists on disk, and
its directory listing in `os.listdir` order. -/
structure Root where
  path : String
  present : Bool
  entries : List Dir
deriving DecidableEq

/-- The sort key of restore_project_refs.py line 12: `1` for the
designated primary root (path containing `"archi"` but not `"plugin"`,
case-insensitively), `0` otherwise. -/
def isPrimaryRoot (r : Root) : Bool :=
  strContains (strLower r.path) "archi" && !strContains (strLower r.path) "plugin"

/-- Python's `sorted` with a `0`/`1` key is stable: all key-`0` roots in
input order, then all key-`1` (primary) roots in input order. -/
def sortRoots (roots : List Root) : List Root :=
  roots.filter (fun r => !isPrimaryRoot r) ++ roots.filter isPrimaryRoot

/-- The literal part of the `Bundle-SymbolicName` regex. -/
def bsnKey : List Char := "Bundle-SymbolicName:".data

/-- One attempted match of the regex `Bundle-SymbolicName:\s*([^;,\s\n]+)`
at a fixed start position: the literal key, a maximal run of whitespace,
then a non-empty capture of characters that are not `;`, `,` or
whitespace. -/
def bsnTryAt (l : List Char) : Option String :=
  if bsnKey.isPrefixOf l then
    let cap := ((l.drop bsnKey.length).dropWhile isSpaceChar).takeWhile
      (fun c => !(c == ';' || c == ',' || isSpaceChar c))
    if cap.isEmpty then none else some ⟨cap⟩
  else none

/-- Model of `re.search` for that pattern: try every start position from
left to right. -/
def bsnSearch : List Char → Option String
  | [] => none
  | c :: cs =>
    match bsnTryAt (c :: cs) with
    | some r => some r
    | none => bsnSearch cs

/-- The `Bundle-SymbolicName` value extracted from a manifest's content
(restore_project_refs.py, line 26). -/
def bsnExtract (content : String) : Option String := bsnSearch content.data

/-- Python `dict` assignment `m[k] = v`: overwrite the value in place
when the key exists, otherwise append the pair at the end. -/
def dictInsert : List (String × String) → String → String → List (String × String)
  | [], k, v => [(k, v)]
  | p :: ps, k, v => if p.1 == k then (k, v) :: ps else p :: dictInsert ps k v

/-- Processing of one directory listing entry by `get_workspace_projects`
of restore_project_refs.py (lines 18-32). -/
def processDir (m : List (String × String)) (d : Dir) : List (String × String) :=
  if d.isDir then
    match d.manifest with
    | some content =>
      match bsnExtract content with
      | some bid => dictInsert m (pyStrip bid) d.name
      | none => m
    | none => if d.hasDotProject then dictInsert m d.name d.name else m
  else m

/-- Processing of one root (skipped when it does not exist). -/
def processRoot (m : List (String × String)) (r : Root) : List (String × String) :=
  if r.present then r.entries.foldl processDir m else m

/-- The core of `get_workspace_projects` in restore_project_refs.py
(lines 6-33): build the bundle-ID → directory-name map over the sorted
roots. -/
def get_workspace_projects (roots : List Root) : List (String × String) :=
  (sortRoots roots).foldl processRoot []

/-- The single catalog write a directory entry performs, if any. -/
def dirWrite (d : Dir) : Option (String × String) :=
  if d.isDir then
    match d.manifest with
    | some content => (bsnExtract content).map (fun bid => (pyStrip bid, d.name))
    | none => if d.hasDotProject then some (d.name, d.name) else none
  else none

/-- Applying a sequence of dictionary writes in order. -/
def applyWrites (m : List (String × String)) (ws : List (String × String)) :
    List (String × String) :=
  ws.foldl (fun acc kv => dictInsert acc kv.1 kv.2) m

/-- The last value a write sequence assigns to key `k`, if any. -/
def lastVal (ws : List (String × String)) (k : String) : Option String :=
  match ws with
  | [] => none
  | w :: rest =>
    match lastVal rest k with
    | some v => some v
    | none => if w.1 == k then some w.2 else none

/-- The writes a root performs, in listing order. -/
def rootWrites (r : Root) : List (String × String) :=
  if r.present then r.entries.filterMap dirWrite else []

/-! Per-file error handling (the `try`/`except` wrappers and the `main`
loops).  A fallible parse is modelled as an `Except` value; a write
failure as a Boolean. -/

/-- Outcome of processing one file: the Boolean the function returns and
the document written back, if any write completed. -/
structure RunOutcome where
  returned : Bool
  written : Option (List Entry)
deriving DecidableEq

/-- The `try`/`except` body of `cleanup_classpath` (lines 22-61): a parse
or write failure is caught and the function returns `False`; otherwise
the file is rewritten only when the rule engine changed something. -/
def cleanupTry (parsed : Except String (List Entry)) (writeFails : Bool)
    (projects : List String) : RunOutcome :=
  match parsed with
  | .error _ => ⟨false, none⟩
  | .ok doc =>
    let r := cleanup_classpath projects doc
    if r.changed then
      if writeFails then ⟨false, none⟩ else ⟨true, some r.doc⟩
    else ⟨false, none⟩

/-- The `try`/`except` body of `update_classpath_references`
(lines 64-91). -/
def updateTry (parsed : Except String (List Entry)) (writeFails : Bool)
    (required : List String) (cat : List (String × String)) : RunOutcome :=
  match parsed with
  | .error _ => ⟨false, none⟩
  | .ok doc =>
    let r := update_classpath_references doc required cat
    if r.2 then
      if writeFails then ⟨false, none⟩ else ⟨true, some r.1⟩
    else ⟨false, none⟩

/-- The per-file loop of cleanup's `main` (lines 82-85): each file is
processed independently of the others. -/
def runCleanupAll (projects : List String)
    (files : List (Except String (List Entry) × Bool)) : List RunOutcome :=
  files.map (fun f => cleanupTry f.1 f.2 projects)

/-- The per-file loop of restore's `main` (lines 106-121): each file
carries its own parse result, write-failure flag and required-bundle
list. -/
def runRestoreAll (cat : List (String × String))
    (files : List (Except String (List Entry) × Bool × List String)) :
    List RunOutcome :=
  files.map (fun f => updateTry f.1 f.2.1 f.2.2 cat)

/-! Helper lemmas bridging the loop-based definitions and their
declarative characterisations. -/

/-! Helper lemmas relating the fold-based definition of the cleanup to a
filter over the flagged predicate. -/

theorem withIdx_le_fst {n : Nat} {l : List Entry} {p : Nat × Entry}
    (h : p ∈ withIdx n l) : n ≤ p.1 := by
  induction l generalizing n with
  | nil => simp [withIdx] at h
  | cons e es ih =>
    simp only [withIdx, List.mem_cons] at h
    rcases h with h | h
    · subst h; exact Nat.le_refl n
    · exact Nat.le_of_succ_le (ih h)

theorem withIdx_nodup (n : Nat) (l : List Entry) : (withIdx n l).Nodup := by
  induction l generalizing n with
  | nil => exact List.nodup_nil
  | cons e es ih =>
    refine List.nodup_cons.mpr ⟨?_, ih (n + 1)⟩
    intro hmem
    have := withIdx_le_fst hmem
    omega

theorem withIdx_map_snd_filter (p : Entry → Bool) (n : Nat) (l : List Entry) :
    ((withIdx n l).filter (fun ie => p ie.2)).map (fun ie => ie.2) = l.filter p := by
  induction l generalizing n with
  | nil => rfl
  | cons e es ih =>
    by_cases h : p e
    · simp [withIdx, List.filter_cons, h, ih (n + 1)]
    · simp only [Bool.not_eq_true] at h
      simp [withIdx, List.filter_cons, h, ih (n + 1)]

theorem cleanupStep_eq (projects : List String) (acc : List (Nat × Entry))
    (ie : Nat × Entry) (h : ie ∉ acc) :
    cleanupStep projects acc ie =
      acc ++ (if entryFlagged projects ie.2 then [ie] else []) := by
  unfold cleanupStep entryFlagged
  by_cases hl : isLib ie.2
  · simp only [hl, if_true, Bool.true_and]
    by_cases h1 : (rule1Match projects (basename (ie.2.getD "path" ""))).isSome
    · have hmem : ie ∈ acc ++ [ie] := List.mem_append_right _ (List.mem_singleton.mpr rfl)
      simp [h1, hmem]
    · by_cases h2 : rule2Matches (basename (ie.2.getD "path" ""))
      · simp [h1, h2, h]
      · simp [h1, h2]
  · simp only [Bool.not_eq_true] at hl
    simp [hl]

theorem foldl_cleanupStep (projects : List String) :
    ∀ (l acc : List (Nat × Entry)), (∀ x ∈ l, x ∉ acc) → l.Nodup →
      l.foldl (cleanupStep projects) acc =
        acc ++ l.filter (fun ie => entryFlagged projects ie.2) := by
  intro l
  induction l with
  | nil => intro acc _ _; simp
  | cons a t ih =>
    intro acc hdisj hnd
    have ha : a ∉ acc := hdisj a (List.mem_cons_self a t)
    have hnd' := List.nodup_cons.mp hnd
    have step := cleanupStep_eq projects acc a ha
    simp only [List.foldl_cons, step]
    have hdisj' : ∀ x ∈ t, x ∉ acc ++ (if entryFlagged projects a.2 then [a] else []) := by
      intro x hx
      have hxa : x ≠ a := fun he => hnd'.1 (he ▸ hx)
      intro hmem
      rcases List.mem_append.mp hmem with hc | hc
      · exact hdisj x (List.mem_cons_of_mem a hx) hc
      · rcases em (entryFlagged projects a.2 = true) with hf | hf
        · simp only [hf, if_true, List.mem_singleton] at hc
          exact hxa hc
        · simp only [Bool.not_eq_true] at hf
          simp [hf] at hc
    rw [ih _ hdisj' hnd'.2]
    by_cases hf : entryFlagged projects a.2
    · simp [List.filter_cons, hf, List.append_assoc]
    · simp only [Bool.not_eq_true] at hf
      simp [List.filter_cons, hf]

theorem toRemoveIdx_eq (projects : List String) (doc : List Entry) :
    toRemoveIdx projects doc =
      (withIdx 0 doc).filter (fun ie => entryFlagged projects ie.2) := by
  have := foldl_cleanupStep projects (withIdx 0 doc) []
    (by intro x _ hx; cases hx) (withIdx_nodup 0 doc)
  simpa [toRemoveIdx] using this

theorem foldl_erase_eq_filter :
    ∀ (rm d : List (Nat × Entry)), d.Nodup →
      rm.foldl (fun acc ie => acc.erase ie) d = d.filter (fun x => decide (x ∉ rm)) := by
  intro rm
  induction rm with
  | nil => intro d _; simp
  | cons a rs ih =>
    intro d hd
    simp only [List.foldl_cons]
    rw [ih (d.erase a) (hd.erase a)]
    rw [List.Nodup.erase_eq_filter hd a, List.filter_filter]
    apply List.filter_congr
    intro x _
    by_cases hxa : x = a
    · simp [hxa]
    · simp [hxa]

theorem removeAll_toRemove (projects : List String) (doc : List Entry) :
    removeAll (withIdx 0 doc) (toRemoveIdx projects doc) =
      (withIdx 0 doc).filter (fun ie => !entryFlagged projects ie.2) := by
  unfold removeAll
  rw [foldl_erase_eq_filter _ _ (withIdx_nodup 0 doc), toRemoveIdx_eq]
  apply List.filter_congr
  intro x hx
  by_cases hf : entryFlagged projects x.2
  · simp [List.mem_filter, hx, hf]
  · simp only [Bool.not_eq_true] at hf
    simp [List.mem_filter, hf]

/-- Central characterisation of the cleanup: the output document is the
input filtered to the entries no rule flags. -/
theorem cleanup_doc_eq (projects : List String) (doc : List Entry) :
    (cleanup_classpath projects doc).doc =
      doc.filter (fun e => !entryFlagged projects e) := by
  unfold cleanup_classpath
  simp only [removeAll_toRemove]
  exact withIdx_map_snd_filter (fun e => !entryFlagged projects e) 0 doc

/-- The `changed` flag is set exactly when some entry is flagged. -/
theorem cleanup_changed_eq (projects : List String) (doc : List Entry) :
    (cleanup_classpath projects doc).changed = doc.any (entryFlagged projects) := by
  have hmap := withIdx_map_snd_filter (entryFlagged projects) 0 doc
  show (!(toRemoveIdx projects doc).isEmpty) = doc.any (entryFlagged projects)
  rw [toRemoveIdx_eq]
  rcases hfe : (withIdx 0 doc).filter (fun ie => entryFlagged projects ie.2) with _ | ⟨a, l⟩
  · have hnil : doc.filter (entryFlagged projects) = [] := by
      rw [← hmap, hfe]; rfl
    have hany : doc.any (entryFlagged projects) = false := by
      rw [List.any_eq_false]
      intro x hx
      have h2 := List.filter_eq_nil_iff.mp hnil x hx
      simpa using h2
    rw [hany, hfe]; rfl
  · have hmem : a.2 ∈ doc.filter (entryFlagged projects) := by
      rw [← hmap, hfe]
      exact List.mem_map_of_mem _ (List.mem_cons_self a l)
    have hm2 := List.mem_filter.mp hmem
    have hany : doc.any (entryFlagged projects) = true :=
      List.any_eq_true.mpr ⟨a.2, hm2.1, hm2.2⟩
    rw [hany, hfe]; rfl


theorem updStep_eq (exs : List (Option String)) (cat : List (String × String))
    (st : List Entry × Bool) (b : String) :
    updStep exs cat st b =
      match refToAdd exs cat b with
      | some e => (st.1 ++ [e], true)
      | none => st := by
  unfold updStep refToAdd
  rcases lookupCat cat b with _ | dir
  · rfl
  · by_cases h : some ("/" ++ dir) ∈ exs
    · simp [h]
    · simp [h]

theorem foldl_updStep (exs : List (Option String)) (cat : List (String × String)) :
    ∀ (req : List String) (st : List Entry × Bool),
      req.foldl (updStep exs cat) st =
        (st.1 ++ req.filterMap (refToAdd exs cat),
          st.2 || !(req.filterMap (refToAdd exs cat)).isEmpty) := by
  intro req
  induction req with
  | nil => intro st; simp
  | cons b t ih =>
    intro st
    simp only [List.foldl_cons, updStep_eq]
    rcases h : refToAdd exs cat b with _ | e
    · rw [ih st]
      simp [List.filterMap_cons, h]
    · rw [ih (st.1 ++ [e], true)]
      simp [List.filterMap_cons, h, List.append_assoc]

/-- Central characterisation of one run of `update_classpath_references`. -/
theorem update_eq (doc : List Entry) (required : List String)
    (cat : List (String × String)) :
    update_classpath_references doc required cat =
      (doc ++ appendedRefs doc required cat,
        !(appendedRefs doc required cat).isEmpty) := by
  unfold update_classpath_references appendedRefs
  rw [foldl_updStep]
  simp

theorem existingSrcs_append (a b : List Entry) :
    existingSrcs (a ++ b) = existingSrcs a ++ existingSrcs b := by
  unfold existingSrcs
  rw [List.filter_append, List.map_append]

theorem existingSrcs_newEntry (p : String) :
    existingSrcs [newEntry p] = [some p] := by
  rfl


theorem str_ext {a b : String} (h : a.data = b.data) : a = b := by
  cases a; cases b; exact congrArg String.mk h

theorem str_append_empty (a : String) : a ++ "" = a := by
  apply str_ext
  rw [String.data_append]
  show a.data ++ [] = a.data
  simp

theorem str_empty_append (a : String) : "" ++ a = a := by
  apply str_ext
  rw [String.data_append]
  rfl

theorem str_append_assoc (a b c : String) : (a ++ b) ++ c = a ++ (b ++ c) := by
  apply str_ext
  simp [String.data_append, List.append_assoc]

theorem collectRequire_true (rest : List String) :
    ∀ content, collectRequire rest true content = content ++ contAmended rest := by
  induction rest with
  | nil => intro c; exact (str_append_empty c).symm
  | cons line t ih =>
    intro c
    by_cases h1 : strStartsWith line "Require-Bundle:" = true
    · simp only [collectRequire, contAmended, h1, if_true]
      rw [ih, str_append_assoc]
    · simp only [Bool.not_eq_true] at h1
      by_cases h2 : (strContainsChar line ':' && !(strStartsWith line " ")) = true
      · simp only [collectRequire, contAmended, h1, h2, Bool.false_eq_true, if_false, if_true]
        exact (str_append_empty c).symm
      · simp only [Bool.not_eq_true] at h2
        simp only [collectRequire, contAmended, h1, h2, Bool.false_eq_true, if_false, if_true]
        rw [ih, str_append_assoc]

theorem collectRequire_false (lines : List String) :
    ∀ content, collectRequire lines false content =
      content ++ (requireValueAmended lines).getD "" := by
  induction lines with
  | nil => intro c; exact (str_append_empty c).symm
  | cons line t ih =>
    intro c
    by_cases h1 : strStartsWith line "Require-Bundle:" = true
    · simp only [collectRequire, requireValueAmended, h1, if_true, Option.getD_some]
      rw [collectRequire_true, str_append_assoc]
    · simp only [Bool.not_eq_true] at h1
      simp only [collectRequire, requireValueAmended, h1, Bool.false_eq_true, if_false]
      exact ih c

/-- The tail-recursive accumulator loop equals the compositional amended
description. -/
theorem get_required_bundles_eq_amended (file : Option (List String)) :
    get_required_bundles file = get_required_bundles_amended file := by
  rcases file with _ | lines
  · rfl
  · show parseBundles (collectRequire lines false "") =
      parseBundles ((requireValueAmended lines).getD "")
    rw [collectRequire_false, str_empty_append]

theorem parseBundles_loop (parts : List String) :
    ∀ acc, parts.foldl parseStep acc =
      acc ++ (parts.map (fun part =>
          pyStrip ⟨part.data.takeWhile (fun c => !(c == ';'))⟩)).filter
        (fun s => !s.data.isEmpty) := by
  induction parts with
  | nil => intro acc; simp
  | cons p t ih =>
    intro acc
    simp only [List.foldl_cons, List.map_cons, List.filter_cons]
    by_cases h : (pyStrip ⟨p.data.takeWhile (fun c => !(c == ';'))⟩).data.isEmpty = true
    · have hstep : parseStep acc p = acc := by
        unfold parseStep
        simp [h]
      rw [hstep, ih]
      simp [h]
    · simp only [Bool.not_eq_true] at h
      have hstep : parseStep acc p =
          acc ++ [pyStrip ⟨p.data.takeWhile (fun c => !(c == ';'))⟩] := by
        unfold parseStep
        simp [h]
      rw [hstep, ih]
      simp [h, List.append_assoc]

/-- Characterisation of the splitting stage: comma segments, first `";"`
field, stripped, empties discarded. -/
theorem parseBundles_eq (content : String) :
    parseBundles content =
      ((splitOnChar ',' content).map (fun part =>
          pyStrip ⟨part.data.takeWhile (fun c => !(c == ';'))⟩)).filter
        (fun s => !s.data.isEmpty) := by
  unfold parseBundles
  rw [parseBundles_loop]
  rfl


theorem processDir_eq (m : List (String × String)) (d : Dir) :
    processDir m d =
      match dirWrite d with
      | some kv => dictInsert m kv.1 kv.2
      | none => m := by
  obtain ⟨name, dIsDir, manifest, hasProj⟩ := d
  cases dIsDir with
  | false => rfl
  | true =>
    cases manifest with
    | none =>
      cases hasProj with
      | false => rfl
      | true => rfl
    | some content =>
      cases hb : bsnExtract content with
      | none => simp [processDir, dirWrite, hb]
      | some bid => simp [processDir, dirWrite, hb]

theorem foldl_processDir (ds : List Dir) :
    ∀ m, ds.foldl processDir m = applyWrites m (ds.filterMap dirWrite) := by
  induction ds with
  | nil => intro m; rfl
  | cons d t ih =>
    intro m
    simp only [List.foldl_cons, List.filterMap_cons, processDir_eq]
    rcases h : dirWrite d with _ | kv
    · exact ih m
    · exact ih (dictInsert m kv.1 kv.2)

theorem processRoot_eq (m : List (String × String)) (r : Root) :
    processRoot m r = applyWrites m (rootWrites r) := by
  unfold processRoot rootWrites
  by_cases hp : r.present = true
  · simp only [hp, if_true]
    exact foldl_processDir r.entries m
  · simp only [Bool.not_eq_true] at hp
    simp [hp]
    rfl

theorem lookup_dictInsert (m : List (String × String)) (k v k' : String) :
    lookupCat (dictInsert m k v) k' =
      if k == k' then some v else lookupCat m k' := by
  induction m with
  | nil =>
    by_cases h : k = k'
    · have hb : (k == k') = true := beq_iff_eq.mpr h
      simp [dictInsert, lookupCat, List.find?, hb]
    · have hb : (k == k') = false := beq_eq_false_iff_ne.mpr h
      simp [dictInsert, lookupCat, List.find?, hb]
  | cons p ps ih =>
    by_cases hpk : p.1 = k
    · have hb : (p.1 == k) = true := beq_iff_eq.mpr hpk
      by_cases hk : k = k'
      · have hb' : (k == k') = true := beq_iff_eq.mpr hk
        simp [dictInsert, lookupCat, List.find?, hb, hb']
      · have hb' : (k == k') = false := beq_eq_false_iff_ne.mpr hk
        have hpk' : (p.1 == k') = false := by
          rw [hpk]; exact hb'
        simp [dictInsert, lookupCat, List.find?, hb, hb', hpk']
    · have hb : (p.1 == k) = false := beq_eq_false_iff_ne.mpr hpk
      by_cases hpk' : p.1 = k'
      · have hb2 : (p.1 == k') = true := beq_iff_eq.mpr hpk'
        have hk : (k == k') = false := by
          refine beq_eq_false_iff_ne.mpr ?_
          intro he
          exact hpk (by rw [he]; exact hpk')
        simp [dictInsert, lookupCat, List.find?, hb, hb2, hk]
      · have hb2 : (p.1 == k') = false := beq_eq_false_iff_ne.mpr hpk'
        have hlcat : lookupCat (p :: dictInsert ps k v) k' =
            lookupCat (dictInsert ps k v) k' := by
          simp [lookupCat, List.find?, hb2]
        simp only [dictInsert, hb, Bool.false_eq_true, if_false]
        rw [hlcat, ih]
        by_cases hk : (k == k') = true
        · simp [hk]
        · simp only [Bool.not_eq_true] at hk
          simp [hk, lookupCat, List.find?, hb2]

theorem lookup_applyWrites (ws : List (String × String)) :
    ∀ (m : List (String × String)) (k : String),
      lookupCat (applyWrites m ws) k =
        match lastVal ws k with
        | some v => some v
        | none => lookupCat m k := by
  induction ws with
  | nil => intro m k; rfl
  | cons w rest ih =>
    intro m k
    show lookupCat (applyWrites (dictInsert m w.1 w.2) rest) k = _
    rw [ih]
    rcases h : lastVal rest k with _ | v
    · simp only [lastVal, h]
      rw [lookup_dictInsert]
      by_cases hk : w.1 == k
      · simp [hk]
      · simp only [Bool.not_eq_true] at hk
        simp [hk]
    · simp [lastVal, h]

/-- For a non-primary root and a primary one, the stable sort puts the
primary root last, whatever the input order. -/
theorem sortRoots_pair (rA rP : Root) (hA : isPrimaryRoot rA = false)
    (hP : isPrimaryRoot rP = true) :
    sortRoots [rA, rP] = [rA, rP] ∧ sortRoots [rP, rA] = [rA, rP] := by
  constructor
  · unfold sortRoots
    simp [List.filter_cons, hA, hP]
  · unfold sortRoots
    simp [List.filter_cons, hA, hP]

/-- A two-root catalog build is the primary root's writes applied after
the non-primary root's writes, for either input order. -/
theorem get_workspace_projects_two (rA rP : Root) (hA : isPrimaryRoot rA = false)
    (hP : isPrimaryRoot rP = true) :
    get_workspace_projects [rA, rP] =
        applyWrites (applyWrites [] (rootWrites rA)) (rootWrites rP) ∧
      get_workspace_projects [rP, rA] =
        applyWrites (applyWrites [] (rootWrites rA)) (rootWrites rP) := by
  have h1 := (sortRoots_pair rA rP hA hP).1
  have h2 := (sortRoots_pair rA rP hA hP).2
  constructor
  · unfold get_workspace_projects
    rw [h1]
    simp only [List.foldl_cons, List.foldl_nil]
    rw [processRoot_eq, processRoot_eq]
  · unfold get_workspace_projects
    rw [h2]
    simp only [List.foldl_cons, List.foldl_nil]
    rw [processRoot_eq, processRoot_eq]


theorem sortRoots_single (r : Root) : sortRoots [r] = [r] := by
  unfold sortRoots
  by_cases h : isPrimaryRoot r = true
  · simp [List.filter_cons, h]
  · simp only [Bool.not_eq_true] at h
    simp [List.filter_cons, h]

theorem newEntry_kind (p : String) : (newEntry p).get "kind" = some "src" := rfl

theorem newEntry_path (p : String) : (newEntry p).get "path" = some p := rfl

theorem mem_existingSrcs_of_mem {doc : List Entry} {e : Entry} (h : e ∈ doc)
    (hk : e.get "kind" = some "src") : e.get "path" ∈ existingSrcs doc := by
  unfold existingSrcs
  apply List.mem_map_of_mem
  rw [List.mem_filter]
  refine ⟨h, ?_⟩
  rw [hk]
  rfl

/-! Claim theorems. -/

/-- C1: for every `kind="lib"` entry of a parsed document whose path
basename matches some catalog project under Rule 1, `cleanup_classpath`
removes that entry from the output document; the project loop stops at
the first matching project (`rule1Match` on a catalog headed by a
matching project reports that project); and on the worked example with
catalog `["archi", "elk-layout"]` the removal set is exactly
`{archi-4.9.jar, archi.source_1.0.jar}`, leaving only
`commons-io-2.8.jar`. -/
theorem C1_rule1_self_reference_removal :
    (∀ (projects : List String) (doc : List Entry) (e : Entry), e ∈ doc →
      isLib e = true →
      (∃ p ∈ projects, rule1Matches p (basename (e.getD "path" "")) = true) →
      e ∉ (cleanup_classpath projects doc).doc) ∧
    (∀ (p : String) (ps : List String) (f : String), rule1Matches p f = true →
      rule1Match (p :: ps) f = some p) ∧
    (cleanup_classpath ["archi", "elk-layout"]
        [⟨[("kind", "lib"), ("path", "archi-4.9.jar")]⟩,
          ⟨[("kind", "lib"), ("path", "commons-io-2.8.jar")]⟩,
          ⟨[("kind", "lib"), ("path", "archi.source_1.0.jar")]⟩]).doc =
      [⟨[("kind", "lib"), ("path", "commons-io-2.8.jar")]⟩] := by
  refine ⟨?_, ?_, ?_⟩
  · intro projects doc e he hlib hex hmem
    rw [cleanup_doc_eq] at hmem
    have hkeep := (List.mem_filter.mp hmem).2
    have hsome : (rule1Match projects (basename (e.getD "path" ""))).isSome = true := by
      unfold rule1Match
      rw [List.find?_isSome]
      exact hex
    have hflag : entryFlagged projects e = true := by
      unfold entryFlagged
      rw [hlib, hsome]
      rfl
    rw [hflag] at hkeep
    simp at hkeep
  · intro p ps f h
    simp [rule1Match, List.find?, h]
  · decide

/-- C1 witness: the general removal statement applied to a concrete
document with a concrete catalog. -/
theorem C1_rule1_self_reference_removal_witness :
    (⟨[("kind", "lib"), ("path", "archi-4.9.jar")]⟩ : Entry) ∉
      (cleanup_classpath ["archi"]
        [⟨[("kind", "lib"), ("path", "archi-4.9.jar")]⟩]).doc :=
  C1_rule1_self_reference_removal.1 ["archi"] _ _ (by decide) (by decide)
    ⟨"archi", by decide, by decide⟩

/-- C2 counterexample: the claim quantifies over every `classpathentry`
element whose basename contains `".source_"` or `".source-"`, but the
code applies Rule 2 only to entries of kind `"lib"`: a `kind="src"`
entry whose basename contains `".source_"` survives the cleanup
unchanged. -/
theorem C2_source_jar_removal_counterexample :
    rule2Matches (basename ((⟨[("kind", "src"),
        ("path", "x.source_1.0.jar")]⟩ : Entry).getD "path" "")) = true ∧
    (cleanup_classpath ["archi"]
        [⟨[("kind", "src"), ("path", "x.source_1.0.jar")]⟩]).doc =
      [⟨[("kind", "src"), ("path", "x.source_1.0.jar")]⟩] := by
  refine ⟨?_, ?_⟩
  · decide
  · decide

/-- C2 amended: for every entry of kind `"lib"` whose path basename
contains `".source_"` or `".source-"`, `cleanup_classpath` removes the
entry from the output document, with no assumption about whether Rule 1
also matched it. -/
theorem C2_source_jar_removal_amended :
    ∀ (projects : List String) (doc : List Entry) (e : Entry), e ∈ doc →
      isLib e = true →
      rule2Matches (basename (e.getD "path" "")) = true →
      e ∉ (cleanup_classpath projects doc).doc := by
  intro projects doc e he hlib h2 hmem
  rw [cleanup_doc_eq] at hmem
  have hkeep := (List.mem_filter.mp hmem).2
  have hflag : entryFlagged projects e = true := by
    unfold entryFlagged
    rw [hlib, h2]
    simp
  rw [hflag] at hkeep
  simp at hkeep

/-- C2 witness: the amended statement applied to a source jar that Rule 1
does not match. -/
theorem C2_source_jar_removal_amended_witness :
    (⟨[("kind", "lib"), ("path", "lib/x.source-1.0.jar")]⟩ : Entry) ∉
      (cleanup_classpath []
        [⟨[("kind", "lib"), ("path", "lib/x.source-1.0.jar")]⟩]).doc :=
  C2_source_jar_removal_amended [] _ _ (by decide) (by decide) (by decide)

/-- C3: the output document of `cleanup_classpath` is exactly the input
document filtered to the entries no rule flags, so every unflagged entry
is preserved with its original attributes, and it is a sublist of the
input, so surviving entries keep their original relative order.
(`entryFlagged` is proven equivalent to the removal loop by
`cleanup_doc_eq`.) -/
theorem C3_unflagged_entries_preserved :
    ∀ (projects : List String) (doc : List Entry),
      (cleanup_classpath projects doc).doc =
          doc.filter (fun e => !entryFlagged projects e) ∧
        List.Sublist (cleanup_classpath projects doc).doc doc := by
  intro projects doc
  refine ⟨cleanup_doc_eq projects doc, ?_⟩
  rw [cleanup_doc_eq]
  exact List.filter_sublist doc

/-- C4: one run of `update_classpath_references` appends, at the end of
the document and in required-bundle order, exactly the entries
`appendedRefs` describes — one `combineaccessrules="false"`, `kind="src"`,
`path="/"+dir` element for each required bundle whose catalog directory
`dir` is not already among the existing `src` paths.  A bundle missing
from the catalog contributes nothing, and on the worked example
`[org.x, org.y]` with catalog `{org.x → projA}` exactly one entry with
path `"/projA"` is appended. -/
theorem C4_reference_restoration_appends :
    (∀ (doc : List Entry) (required : List String) (cat : List (String × String)),
      (update_classpath_references doc required cat).1 =
        doc ++ appendedRefs doc required cat) ∧
    refToAdd (existingSrcs [⟨[("kind", "src"), ("path", "/other")]⟩])
        [("org.x", "projA")] "org.y" = none ∧
    (update_classpath_references [⟨[("kind", "src"), ("path", "/other")]⟩]
        ["org.x", "org.y"] [("org.x", "projA")]).1 =
      [⟨[("kind", "src"), ("path", "/other")]⟩, newEntry "/projA"] ∧
    newEntry "/projA" =
      ⟨[("combineaccessrules", "false"), ("kind", "src"), ("path", "/projA")]⟩ := by
  refine ⟨?_, ?_, ?_, ?_⟩
  · intro doc required cat
    rw [update_eq]
  · decide
  · decide
  · rfl

/-- C5: reference restoration is idempotent — running
`update_classpath_references` on the document produced by a first run,
with the same required bundles and catalog, appends nothing and reports
no change, because every path the first run appended is found among the
existing `src` paths of the second run. -/
theorem C5_reference_restoration_idempotent :
    ∀ (doc : List Entry) (required : List String) (cat : List (String × String)),
      update_classpath_references
          (update_classpath_references doc required cat).1 required cat =
        ((update_classpath_references doc required cat).1, false) := by
  intro doc required cat
  have hd1 : (update_classpath_references doc required cat).1 =
      doc ++ appendedRefs doc required cat := by
    rw [update_eq]
  have hnil : appendedRefs ((update_classpath_references doc required cat).1)
      required cat = [] := by
    unfold appendedRefs
    rw [List.filterMap_eq_nil_iff]
    intro b hb
    rcases hl : lookupCat cat b with _ | dir
    · simp [refToAdd, hl]
    · have hmem : some ("/" ++ dir) ∈
          existingSrcs ((update_classpath_references doc required cat).1) := by
        rw [hd1, existingSrcs_append]
        by_cases hin : some ("/" ++ dir) ∈ existingSrcs doc
        · exact List.mem_append_left _ hin
        · refine List.mem_append_right _ ?_
          have hadd : refToAdd (existingSrcs doc) cat b =
              some (newEntry ("/" ++ dir)) := by
            simp [refToAdd, hl, hin]
          have hmm : newEntry ("/" ++ dir) ∈ appendedRefs doc required cat :=
            List.mem_filterMap.mpr ⟨b, hb, hadd⟩
          have hms := mem_existingSrcs_of_mem hmm (newEntry_kind _)
          rw [newEntry_path] at hms
          exact hms
      simp [refToAdd, hl, hmem]
  rw [update_eq, hnil]
  simp

/-- C6 counterexample: the claim says the header value continues until a
line that contains a colon and does not start with whitespace; the code
instead (a) stops at any colon-containing line not starting with a space
character, so a tab-indented continuation line with a colon ends the
value early, and (b) never stops at a line starting with
`Require-Bundle:`, whose value it appends instead.  Both behaviours
diverge from the claim's description (`get_required_bundles_claim`,
modelled from the claim's words) on concrete manifests. -/
theorem C6_require_bundle_parsing_counterexample :
    get_required_bundles (some ["Require-Bundle: a,\n", "\tb: x,\n", " c\n"]) = ["a"] ∧
    get_required_bundles_claim (some ["Require-Bundle: a,\n", "\tb: x,\n", " c\n"]) =
      ["a", "b: x", "c"] ∧
    get_required_bundles (some ["Require-Bundle: a\n", "Require-Bundle: b\n"]) = ["ab"] ∧
    get_required_bundles_claim (some ["Require-Bundle: a\n", "Require-Bundle: b\n"]) =
      ["a"] :=
  ⟨by decide, by decide, by decide, by decide⟩

/-- C6 amended: `get_required_bundles` accumulates the `Require-Bundle`
value across subsequent lines until a line that contains a colon, does
not start with a space character, and does not itself start with
`Require-Bundle:` (such a header line's own value after the prefix is
appended instead); the accumulated value is split on commas, each
segment truncated at its first `";"` and stripped, empty results
discarded; and a missing manifest file yields the empty list with no
error. -/
theorem C6_require_bundle_parsing_amended :
    (∀ file, get_required_bundles file = get_required_bundles_amended file) ∧
    get_required_bundles none = [] ∧
    (∀ content, parseBundles content =
      ((splitOnChar ',' content).map (fun part =>
          pyStrip ⟨part.data.takeWhile (fun c => !(c == ';'))⟩)).filter
        (fun s => !s.data.isEmpty)) :=
  ⟨get_required_bundles_eq_amended, rfl, parseBundles_eq⟩

/-- C7: when no rule flags any entry, `cleanup_classpath` returns the
document unchanged with `changed = False` and the wrapped call performs
no write; likewise `update_classpath_references` when nothing is to be
appended; and conversely a `changed = True` result means the output
document really differs from the input, so a write happens only when at
least one change was made. -/
theorem C7_rewrite_only_on_change :
    (∀ (projects : List String) (doc : List Entry) (w : Bool),
      doc.all (fun e => !entryFlagged projects e) = true →
      cleanup_classpath projects doc = ⟨doc, false⟩ ∧
        cleanupTry (Except.ok doc) w projects = ⟨false, none⟩) ∧
    (∀ (doc : List Entry) (required : List String)
        (cat : List (String × String)) (w : Bool),
      appendedRefs doc required cat = [] →
      update_classpath_references doc required cat = (doc, false) ∧
        updateTry (Except.ok doc) w required cat = ⟨false, none⟩) ∧
    (∀ (projects : List String) (doc : List Entry),
      (cleanup_classpath projects doc).changed = true →
      (cleanup_classpath projects doc).doc ≠ doc) ∧
    (∀ (doc : List Entry) (required : List String)
        (cat : List (String × String)),
      (update_classpath_references doc required cat).2 = true →
      (update_classpath_references doc required cat).1 ≠ doc) := by
  refine ⟨?_, ?_, ?_, ?_⟩
  · intro projects doc w hall
    have hall' : ∀ e ∈ doc, (!entryFlagged projects e) = true :=
      List.all_eq_true.mp hall
    have hdoc := cleanup_doc_eq projects doc
    rw [List.filter_eq_self.mpr hall'] at hdoc
    have hch := cleanup_changed_eq projects doc
    have hany : doc.any (entryFlagged projects) = false := by
      rw [List.any_eq_false]
      intro e he
      have := hall' e he
      simpa using this
    rw [hany] at hch
    have hres : cleanup_classpath projects doc = ⟨doc, false⟩ := by
      calc cleanup_classpath projects doc
          = ⟨(cleanup_classpath projects doc).doc,
              (cleanup_classpath projects doc).changed⟩ := rfl
        _ = ⟨doc, false⟩ := by rw [hdoc, hch]
    refine ⟨hres, ?_⟩
    simp [cleanupTry, hres]
  · intro doc required cat w hnil
    have hres : update_classpath_references doc required cat = (doc, false) := by
      rw [update_eq, hnil]
      simp
    refine ⟨hres, ?_⟩
    simp [updateTry, hres]
  · intro projects doc hch heq
    rw [cleanup_doc_eq] at heq
    have hall := List.filter_eq_self.mp heq
    rw [cleanup_changed_eq] at hch
    rcases List.any_eq_true.mp hch with ⟨e, he, hf⟩
    have := hall e he
    rw [hf] at this
    simp at this
  · intro doc required cat hch heq
    have h1 : (update_classpath_references doc required cat).1 =
        doc ++ appendedRefs doc required cat := by rw [update_eq]
    rw [h1] at heq
    have hlen := congrArg List.length heq
    rw [List.length_append] at hlen
    have h0 : (appendedRefs doc required cat).length = 0 := by omega
    have hnil : appendedRefs doc required cat = [] := List.length_eq_zero.mp h0
    have h2 : (update_classpath_references doc required cat).2 =
        !(appendedRefs doc required cat).isEmpty := by rw [update_eq]
    rw [hnil] at h2
    rw [h2] at hch
    simp at hch

/-- C7 witness: the four parts instantiated at concrete inputs. -/
theorem C7_rewrite_only_on_change_witness :
    (cleanup_classpath ["archi"] [⟨[("kind", "lib"), ("path", "commons-io-2.8.jar")]⟩] =
        ⟨[⟨[("kind", "lib"), ("path", "commons-io-2.8.jar")]⟩], false⟩ ∧
      cleanupTry (Except.ok [⟨[("kind", "lib"), ("path", "commons-io-2.8.jar")]⟩])
        false ["archi"] = ⟨false, none⟩) ∧
    (update_classpath_references [newEntry "/projA"] ["org.x"] [("org.x", "projA")] =
        ([newEntry "/projA"], false) ∧
      updateTry (Except.ok [newEntry "/projA"]) false ["org.x"] [("org.x", "projA")] =
        ⟨false, none⟩) ∧
    (cleanup_classpath ["archi"] [⟨[("kind", "lib"), ("path", "archi-4.9.jar")]⟩]).doc ≠
      [⟨[("kind", "lib"), ("path", "archi-4.9.jar")]⟩] ∧
    (update_classpath_references [] ["org.x"] [("org.x", "projA")]).1 ≠ [] :=
  ⟨C7_rewrite_only_on_change.1 ["archi"] _ false (by decide),
    C7_rewrite_only_on_change.2.1 [newEntry "/projA"] ["org.x"] [("org.x", "projA")]
      false (by decide),
    C7_rewrite_only_on_change.2.2.1 ["archi"] _ (by decide),
    C7_rewrite_only_on_change.2.2.2 [] ["org.x"] [("org.x", "projA")] (by decide)⟩

/-- C8: with parse failures modelled as `Except.error` inputs and write
failures as a flag, the wrapped per-file operations return `False` with
no write on any failure instead of propagating it, and the per-file
loops process every file — the outcome list has one entry per file and
decomposes over list concatenation, so a failing file never aborts the
processing of the remaining files. -/
theorem C8_per_file_errors_contained :
    (∀ (msg : String) (w : Bool) (projects : List String),
      cleanupTry (Except.error msg) w projects = ⟨false, none⟩) ∧
    (∀ (msg : String) (w : Bool) (required : List String)
        (cat : List (String × String)),
      updateTry (Except.error msg) w required cat = ⟨false, none⟩) ∧
    (∀ (projects : List String) (files : List (Except String (List Entry) × Bool)),
      (runCleanupAll projects files).length = files.length) ∧
    (∀ (projects : List String) (a b : List (Except String (List Entry) × Bool)),
      runCleanupAll projects (a ++ b) =
        runCleanupAll projects a ++ runCleanupAll projects b) ∧
    (∀ (cat : List (String × String))
        (files : List (Except String (List Entry) × Bool × List String)),
      (runRestoreAll cat files).length = files.length) ∧
    (∀ (cat : List (String × String))
        (a b : List (Except String (List Entry) × Bool × List String)),
      runRestoreAll cat (a ++ b) = runRestoreAll cat a ++ runRestoreAll cat b) := by
  refine ⟨?_, ?_, ?_, ?_, ?_, ?_⟩
  · intro msg w projects; rfl
  · intro msg w required cat; rfl
  · intro projects files; simp [runCleanupAll]
  · intro projects a b; simp [runCleanupAll]
  · intro cat files; simp [runRestoreAll]
  · intro cat a b; simp [runRestoreAll]

/-- C9: when a non-primary root and the primary root (path containing
"archi" but not "plugin", case-insensitively) each contain a directory
whose manifest declares the same Bundle-SymbolicName, the catalog maps
that bundle ID to the primary root's directory name for either input
order of the two roots: the stable sort processes the primary root last
and its dictionary write overwrites the earlier one. -/
theorem C9_primary_root_wins (rA rP : Root) (dA dP : Dir) (mA mP bid : String)
    (hA : isPrimaryRoot rA = false) (hP : isPrimaryRoot rP = true)
    (hpA : rA.present = true) (hpP : rP.present = true)
    (heA : rA.entries = [dA]) (heP : rP.entries = [dP])
    (hdA : dA.isDir = true) (hdP : dP.isDir = true)
    (hmA : dA.manifest = some mA) (hmP : dP.manifest = some mP)
    (hbA : (bsnExtract mA).map pyStrip = some bid)
    (hbP : (bsnExtract mP).map pyStrip = some bid) :
    lookupCat (get_workspace_projects [rA, rP]) bid = some dP.name ∧
      lookupCat (get_workspace_projects [rP, rA]) bid = some dP.name := by
  have hwP : rootWrites rP = [(bid, dP.name)] := by
    unfold rootWrites
    rw [if_pos hpP, heP]
    rcases hq : bsnExtract mP with _ | b0
    · rw [hq] at hbP; simp at hbP
    · rw [hq] at hbP
      have hps : pyStrip b0 = bid := by simpa using hbP
      simp [List.filterMap_cons, dirWrite, hdP, hmP, hq, hps]
  have h2 := get_workspace_projects_two rA rP hA hP
  have key : lookupCat (applyWrites (applyWrites [] (rootWrites rA))
      (rootWrites rP)) bid = some dP.name := by
    rw [lookup_applyWrites, hwP]
    simp [lastVal]
  exact ⟨by rw [h2.1]; exact key, by rw [h2.2]; exact key⟩

/-- C9 witness: two concrete roots declaring the same bundle ID; the
primary root's directory name wins. -/
theorem C9_primary_root_wins_witness :
    lookupCat (get_workspace_projects
        [⟨"/home/u/github/other", true,
            [⟨"dirA", true, some "Bundle-SymbolicName: org.shared\n", false⟩]⟩,
          ⟨"/home/u/github/archi", true,
            [⟨"dirP", true, some "Bundle-SymbolicName: org.shared\n", false⟩]⟩])
      "org.shared" = some "dirP" :=
  (C9_primary_root_wins
    ⟨"/home/u/github/other", true,
      [⟨"dirA", true, some "Bundle-SymbolicName: org.shared\n", false⟩]⟩
    ⟨"/home/u/github/archi", true,
      [⟨"dirP", true, some "Bundle-SymbolicName: org.shared\n", false⟩]⟩
    ⟨"dirA", true, some "Bundle-SymbolicName: org.shared\n", false⟩
    ⟨"dirP", true, some "Bundle-SymbolicName: org.shared\n", false⟩
    "Bundle-SymbolicName: org.shared\n" "Bundle-SymbolicName: org.shared\n"
    "org.shared"
    (by decide) (by decide) rfl rfl rfl rfl rfl rfl rfl rfl
    (by decide) (by decide)).1

/-- C10: a subdirectory with a readable manifest in which no
Bundle-SymbolicName is found contributes no catalog entry at all — even
when a `.project` file is present, removing it from the listing leaves
the catalog unchanged — and the directory-name fallback write happens
exactly when the manifest is absent and a `.project` file exists. -/
theorem C10_fallback_only_without_manifest :
    (∀ (r : Root) (pre post : List Dir) (d : Dir) (m : String),
      r.entries = pre ++ d :: post → d.manifest = some m → bsnExtract m = none →
      get_workspace_projects [r] =
        get_workspace_projects [{ r with entries := pre ++ post }]) ∧
    (∀ (d : Dir) (m : String), d.manifest = some m → bsnExtract m = none →
      dirWrite d = none) ∧
    (∀ (d : Dir), d.isDir = true → d.manifest = none → d.hasDotProject = true →
      dirWrite d = some (d.name, d.name)) := by
  have hdw : ∀ (d : Dir) (m : String), d.manifest = some m → bsnExtract m = none →
      dirWrite d = none := by
    intro d m hm hb
    by_cases hdir : d.isDir = true
    · simp [dirWrite, hdir, hm, hb]
    · simp only [Bool.not_eq_true] at hdir
      simp [dirWrite, hdir]
  refine ⟨?_, hdw, ?_⟩
  · intro r pre post d m he hm hb
    have hw : rootWrites r = rootWrites { r with entries := pre ++ post } := by
      unfold rootWrites
      by_cases hp : r.present = true
      · rw [if_pos hp, if_pos hp, he]
        simp only [List.filterMap_append, List.filterMap_cons, hdw d m hm hb]
      · simp only [Bool.not_eq_true] at hp
        rw [if_neg (by simp [hp]), if_neg (by simp [hp])]
    unfold get_workspace_projects
    rw [sortRoots_single, sortRoots_single]
    simp only [List.foldl_cons, List.foldl_nil]
    rw [processRoot_eq, processRoot_eq, hw]
  · intro d hdir hm hp
    simp [dirWrite, hdir, hm, hp]

/-- C10 witness: dropping a directory whose manifest lacks a
Bundle-SymbolicName (but which has a `.project` file) does not change
the catalog. -/
theorem C10_fallback_only_without_manifest_witness :
    get_workspace_projects [⟨"/home/u/other", true,
        [⟨"plain", true, some "Manifest-Version: 1.0\n", true⟩,
          ⟨"dirA", true, some "Bundle-SymbolicName: org.a\n", false⟩]⟩] =
      get_workspace_projects [⟨"/home/u/other", true,
        [⟨"dirA", true, some "Bundle-SymbolicName: org.a\n", false⟩]⟩] :=
  C10_fallback_only_without_manifest.1
    ⟨"/home/u/other", true,
      [⟨"plain", true, some "Manifest-Version: 1.0\n", true⟩,
        ⟨"dirA", true, some "Bundle-SymbolicName: org.a\n", false⟩]⟩
    [] [⟨"dirA", true, some "Bundle-SymbolicName: org.a\n", false⟩]
    ⟨"plain", true, some "Manifest-Version: 1.0\n", true⟩
    "Manifest-Version: 1.0\n" rfl rfl (by decide)

end ClasspathTools
